import Mathlib

/-!
Shallow embedding of the E-commerce-Platform repository (src/products.py,
src/order.py, the product-listing core of src/customer.py) in Lean 4.

Modelling conventions:
* Python objects are aliased between the catalog registry (`Product.products`)
  and every order's cart list, so the state carries a `heap` of all allocated
  `Product` records keyed by their unique `product_id`; `registry` and each
  order's `products` hold references (ids) into that heap.
* Python exceptions are modelled with `Except PyErr`; every stateful operation
  returns `PState × Except PyErr α` so that mutations performed before a raise
  are kept, exactly as in Python.
* `print` calls are reporting only and are not modelled; an operation that
  prints a message and returns normally is a `.ok` result.
* Python `str.title()` / `str.strip()` are modelled over ASCII letters and the
  ASCII whitespace class, on `List Char`.
* Python attribute access: `Product.in_cart`'s setter stores attribute
  `_incart` while its getter reads `_in_cart`; the two are therefore separate
  fields, the read one (`attr_in_cart`) of type `Option Bool` where `none`
  means "attribute missing, reading raises AttributeError".
-/

namespace Shop

/-- Python runtime values, as far as the validated constructor arguments need:
ints, floats (modelled exactly as rationals; no claim depends on binary
floating point), bools (which are `isinstance(_, int)` in Python), strings and
`None`. -/
inductive PyVal where
  | vint (n : Int)
  | vfloat (q : Rat)
  | vbool (b : Bool)
  | vstr (s : String)
  | vnone
deriving DecidableEq

/-- Python exceptions raised by the modelled code. -/
inductive PyErr where
  | valueError (msg : String)
  | typeError (msg : String)
  | attributeError
deriving DecidableEq

deriving instance DecidableEq for Except

/-- Python truthiness (`bool(v)`) for the modelled values. -/
def pyTruthy : PyVal → Bool
  | .vint n => n != 0
  | .vfloat q => q != 0
  | .vbool b => b
  | .vstr s => s != ""
  | .vnone => false

/-- Python `isinstance(v, int)`; `bool` is a subclass of `int`. -/
def isInstInt : PyVal → Bool
  | .vint _ => true
  | .vbool _ => true
  | _ => false

/-- Python `isinstance(v, (int, float))`. -/
def isInstNum : PyVal → Bool
  | .vint _ => true
  | .vbool _ => true
  | .vfloat _ => true
  | _ => false

/-- Numeric value of an int-like `PyVal` (only used after an isinstance
check that guarantees int or bool). -/
def PyVal.asInt : PyVal → Int
  | .vint n => n
  | .vbool b => if b then 1 else 0
  | _ => 0

/-- Numeric value of a number-like `PyVal`. -/
def PyVal.asRat : PyVal → Rat
  | .vint n => (n : Rat)
  | .vfloat q => q
  | .vbool b => if b then 1 else 0
  | _ => 0

/-- ASCII uppercase conversion of one character (model of what Python's
`str.title()` does to the first letter of an alphabetic run). -/
def upChar (c : Char) : Char :=
  if 97 ≤ c.toNat ∧ c.toNat ≤ 122 then Char.ofNat (c.toNat - 32) else c

/-- ASCII lowercase conversion of one character. -/
def lowChar (c : Char) : Char :=
  if 65 ≤ c.toNat ∧ c.toNat ≤ 90 then Char.ofNat (c.toNat + 32) else c

/-- ASCII letter test (model of Python's "cased character" for `title()`). -/
def isCased (c : Char) : Bool :=
  decide ((65 ≤ c.toNat ∧ c.toNat ≤ 90) ∨ (97 ≤ c.toNat ∧ c.toNat ≤ 122))

/-- ASCII whitespace test (model of what Python's `str.strip()` removes:
space, tab, newline, vertical tab, form feed, carriage return). -/
def isPySpace (c : Char) : Bool :=
  decide (c.toNat = 32 ∨ (9 ≤ c.toNat ∧ c.toNat ≤ 13))

/-- One character of `str.title()`: a cased character is uppercased when the
previous character was not cased and lowercased otherwise; other characters
pass through. -/
def titleMap (prev : Bool) (c : Char) : Char :=
  if isCased c then (if prev then lowChar c else upChar c) else c

/-- Python `str.title()` on a character list; `prev` records whether the
previous character was cased. -/
def pyTitleGo (prev : Bool) : List Char → List Char
  | [] => []
  | c :: cs => titleMap prev c :: pyTitleGo (isCased c) cs

/-- Python `str.lstrip()` on a character list. -/
def stripL (l : List Char) : List Char := l.dropWhile isPySpace

/-- Python `str.rstrip()` on a character list. -/
def stripR : List Char → List Char
  | [] => []
  | c :: cs =>
    match stripR cs with
    | [] => if isPySpace c then [] else [c]
    | r => c :: r

/-- Python `str.strip()` on a character list. -/
def pyStrip (l : List Char) : List Char := stripR (stripL l)

/-- Python `s.title()` on strings. -/
def pyTitle (s : String) : String := ⟨pyTitleGo false s.data⟩

/-- Python `s.strip()` on strings. -/
def pyStripStr (s : String) : String := ⟨pyStrip s.data⟩

/-- The `name` / `category` setters store `arg.title().strip()`
(src/products.py lines 36 and 47). -/
def storeNorm (s : String) : String := pyStripStr (pyTitle s)

/-- What `Product.__init__` stores for `name`: the argument is passed through
`name.title()` (line 10) and the setter applies `.title().strip()` again. -/
def initNameStored (raw : String) : String := storeNorm (pyTitle raw)

/-- One Python `Product` object (src/products.py). `attr_incart` is the
attribute `_incart` written by the `in_cart` setter (line 93); `attr_in_cart`
is the attribute `_in_cart` read by the `in_cart` getter (line 86), which no
code ever writes. -/
structure Product where
  product_id : Nat
  parent_id : Nat
  name : String
  category : String
  price : Rat
  quantity : Int
  attr_incart : Bool
  attr_in_cart : Option Bool := none
deriving DecidableEq

/-- The `in_cart` getter (src/products.py line 86): returns `self._in_cart`,
raising AttributeError when that attribute was never assigned. -/
def Product.in_cart_get (p : Product) : Except PyErr Bool :=
  match p.attr_in_cart with
  | some b => .ok b
  | none => .error .attributeError

/-- `Product.__eq__` (src/products.py line 287): same product id OR same
parent id. -/
def prodEq (a b : Product) : Bool :=
  a.product_id == b.product_id || a.parent_id == b.parent_id

/-- One Python `Order` object (src/order.py). `products` holds references
(heap ids) to the `Product` objects in the cart. -/
structure Order where
  oid : Nat
  products : List Nat
  created_date : String
  checkout_date : Option String := none
  checkout_status : Bool := false
deriving DecidableEq

/-- The process-wide state: the heap of all allocated `Product` objects
(append-only; Python objects survive registry removal because carts still
reference them), the `Product.products` registry (ids, in list order), the
`Product._id_counter`, the heap and list of orders, `Order._order_id`, and
the fixed value of `str(date.today())` for this run. -/
structure PState where
  heap : List Product
  registry : List Nat
  counter : Option Nat
  orderHeap : List Order
  orderList : List Nat
  orderCounter : Option Nat
  today : String
deriving DecidableEq

/-- The state at interpreter start. -/
def emptyState (today : String) : PState :=
  { heap := [], registry := [], counter := none,
    orderHeap := [], orderList := [], orderCounter := none, today := today }

/-- Look a product up by id in a heap. -/
def findP (heap : List Product) (pid : Nat) : Option Product :=
  heap.find? (fun p => p.product_id == pid)

/-- Replace the product object with the given id in a heap. -/
def updP (heap : List Product) (p : Product) : List Product :=
  heap.map (fun q => if q.product_id == p.product_id then p else q)

/-- Look an order up by id in an order heap. -/
def findO (oheap : List Order) (oid : Nat) : Option Order :=
  oheap.find? (fun o => o.oid == oid)

/-- Replace the order object with the given id in an order heap. -/
def updO (oheap : List Order) (o : Order) : List Order :=
  oheap.map (fun q => if q.oid == o.oid then o else q)

/-- Dereference a product id (reading a Python object reference). -/
def getProd (s : PState) (pid : Nat) : Option Product :=
  findP s.heap pid

/-- Mutate the product object with the given id in place. -/
def setProd (s : PState) (p : Product) : PState :=
  { s with heap := updP s.heap p }

/-- Dereference an order id. -/
def getOrder (s : PState) (oid : Nat) : Option Order :=
  findO s.orderHeap oid

/-- Mutate the order object with the given id in place. -/
def setOrder (s : PState) (o : Order) : PState :=
  { s with orderHeap := updO s.orderHeap o }

/-- Python's element test used by `in` / `list.index` on lists of products:
identity (same reference, hence same id) or `__eq__` (id or parent id). -/
def refMatchH (heap : List Product) (qid pid : Nat) : Bool :=
  qid == pid ||
    match findP heap qid, findP heap pid with
    | some a, some b => prodEq a b
    | _, _ => false

/-- Python's element test, reading through the state. -/
def refMatch (s : PState) (qid pid : Nat) : Bool :=
  refMatchH s.heap qid pid

/-- Index of the first list element that `is` or `==` the given product
(`list.index`). -/
def pyIndexOf (s : PState) (l : List Nat) (pid : Nat) : Option Nat :=
  l.findIdx? (fun qid => refMatch s qid pid)

/-- Python `product in l` for a list of product references. -/
def pyMem (s : PState) (l : List Nat) (pid : Nat) : Bool :=
  l.any (fun qid => refMatch s qid pid)

/-- `Product.generate_id` (src/products.py lines 161-167): a process-wide
counter starting at 100000. -/
def generate_id (s : PState) : Nat × PState :=
  match s.counter with
  | none => (100000, { s with counter := some 100000 })
  | some n => (n + 1, { s with counter := some (n + 1) })

/-- The `quantity` setter (src/products.py lines 64-69): rejects falsy or
non-`int` values — note that every nonzero integer passes, negative ones
included. -/
def quantity_set (q : PyVal) : Except PyErr Int :=
  if !(pyTruthy q) || !(isInstInt q) then
    .error (.valueError "Missing or invalid product quantity")
  else .ok q.asInt

/-- The `price` setter (src/products.py lines 76-81): rejects falsy or
non-numeric values — every nonzero number passes, negative ones included. -/
def price_set (v : PyVal) : Except PyErr Rat :=
  if !(pyTruthy v) || !(isInstNum v) then
    .error (.valueError "Missing or invalid product price")
  else .ok v.asRat

/-- `Product.__init__` (src/products.py lines 9-18): sets name (titled by
`__init__`, validated and normalized by the setter), quantity, price,
generates the id, sets parent id to the own id, sets category (validated
after the id was generated, so a category failure still bumps the counter),
sets `in_cart = False` through the buggy setter (writing `_incart` only),
and appends the new object to `Product.products`.  Returns the new id. -/
def Product.init (s : PState) (nameArg category : String) (price quantity : PyVal) :
    PState × Except PyErr Nat :=
  let titled := pyTitle nameArg
  if titled = "" then (s, .error (.valueError "Missing product name"))
  else
    let name := storeNorm titled
    match quantity_set quantity with
    | .error e => (s, .error e)
    | .ok qty =>
      match price_set price with
      | .error e => (s, .error e)
      | .ok pr =>
        let (pid, s1) := generate_id s
        if category = "" then (s1, .error (.valueError "Missing product category"))
        else
          let cat := storeNorm category
          let p : Product :=
            { product_id := pid, parent_id := pid, name := name, category := cat,
              price := pr, quantity := qty, attr_incart := false }
          ({ s1 with heap := s1.heap ++ [p], registry := s1.registry ++ [pid] }, .ok pid)

/-- `Product.delete_product` (src/products.py lines 179-191): raises if no
registry element compares equal, otherwise pops the FIRST element that
compares equal under `__eq__` (id or parent id) — not necessarily the
argument itself. -/
def delete_product (s : PState) (pid : Nat) : PState × Except PyErr Unit :=
  match pyIndexOf s s.registry pid with
  | none => (s, .error (.valueError "Product does not exist"))
  | some i => ({ s with registry := s.registry.eraseIdx i }, .ok ())

/-- The `validate_product` decorator test (src/products.py lines 96-102):
`self in Product.products`, which uses `__eq__` and therefore also accepts
lineage siblings. -/
def inRegistry (s : PState) (pid : Nat) : Bool :=
  pyMem s s.registry pid

/-- `Product.__add__` restricted to an `int` right operand (src/products.py
lines 219-221): adds directly to `_quantity`, bypassing the setter. -/
def Product.add_int (s : PState) (pid : Nat) (n : Int) : PState × Except PyErr Unit :=
  match getProd s pid with
  | none => (s, .error (.valueError "dangling reference"))
  | some p => (setProd s { p with quantity := p.quantity + n }, .ok ())

/-- `Product.__sub__` restricted to an `int` right operand (src/products.py
lines 256-263): raises when subtracting more than the quantity, deletes the
product (first-`__eq__`-match!) when subtracting exactly the quantity, and
otherwise decrements through the quantity setter. -/
def Product.sub_int (s : PState) (pid : Nat) (n : Int) : PState × Except PyErr Unit :=
  match getProd s pid with
  | none => (s, .error (.valueError "dangling reference"))
  | some p =>
    if p.quantity < n then
      (s, .error (.valueError "Cannot subtract more than the available quantity"))
    else if n == p.quantity then delete_product s pid
    else
      match quantity_set (.vint (p.quantity - n)) with
      | .error e => (s, .error e)
      | .ok q => (setProd s { p with quantity := q }, .ok ())

/-- `Product.add_inventory` (src/products.py lines 104-118).  The guard is
`if not isinstance(value, int) and value <= 0` — with `and` where the
docstring promises `or` — so every `int` (negative and zero included) passes
straight to `self += value`; a nonpositive float raises ValueError from the
guard, a positive float reaches `__add__` and raises TypeError there, and a
str or None raises TypeError inside the guard's `value <= 0` comparison. -/
def Product.add_inventory (s : PState) (pid : Nat) (v : PyVal) : PState × Except PyErr Unit :=
  if !(inRegistry s pid) then
    (s, .error (.valueError "Unable to update product inventory. Product does not exist"))
  else
    match v with
    | .vint n => Product.add_int s pid n
    | .vbool b => Product.add_int s pid (if b then 1 else 0)
    | .vfloat q =>
      if q ≤ 0 then (s, .error (.valueError "Invalid quantity"))
      else (s, .error (.typeError "Cannot add items of different types"))
    | .vstr _ => (s, .error (.typeError "unorderable types in comparison"))
    | .vnone => (s, .error (.typeError "unorderable types in comparison"))

/-- `Product.remove_inventory` (src/products.py lines 120-136): validates the
product is (lineage-)registered and `0 < value <= quantity`, then runs
`self -= value`.  Callers only ever pass `int`, so the argument is an `Int`
here. -/
def Product.remove_inventory (s : PState) (pid : Nat) (v : Int) : PState × Except PyErr Unit :=
  if !(inRegistry s pid) then
    (s, .error (.valueError "Unable to update product inventory. Product does not exist"))
  else
    match getProd s pid with
    | none => (s, .error (.valueError "dangling reference"))
    | some p =>
      if v ≤ 0 || p.quantity < v then (s, .error (.valueError "Invalid quantity"))
      else Product.sub_int s pid v

/-- `Product.new` (src/products.py lines 144-157), the split operation: in a
`try` that catches ValueError (printing and returning `None`), it checks the
requested quantity, constructs a new `Product` with the same (re-normalized)
name, category and price, repoints the new object's parent id at the source,
and, when `update_original` holds, removes the split quantity from the
source.  `none` is the reported-failure result; note that a ValueError raised
by `remove_inventory` is caught AFTER the new product was already created and
registered. -/
def Product.new (s : PState) (pid : Nat) (qty : Int) (update_original : Bool := true) :
    PState × Option Nat :=
  match getProd s pid with
  | none => (s, none)
  | some p =>
    if qty == 0 || p.quantity < qty then (s, none)
    else
      match Product.init s p.name p.category (.vfloat p.price) (.vint qty) with
      | (s1, .error _) => (s1, none)
      | (s1, .ok nid) =>
        let s2 :=
          match getProd s1 nid with
          | some np => setProd s1 { np with parent_id := p.product_id }
          | none => s1
        if update_original then
          match Product.remove_inventory s2 pid qty with
          | (s3, .ok _) => (s3, some nid)
          | (s3, .error _) => (s3, none)
        else (s2, some nid)

/-- `Order.order_id` (src/order.py lines 38-45): counter starting at 10000. -/
def order_id (s : PState) : Nat × PState :=
  match s.orderCounter with
  | none => (10000, { s with orderCounter := some 10000 })
  | some n => (n + 1, { s with orderCounter := some (n + 1) })

/-- `Order.__init__` without initial products (src/order.py lines 13-21), the
only form the program uses (`Order()` in src/customer.py): a fresh id, an
empty cart, today's creation date, no checkout, appended to `Order.orders`. -/
def Order.initEmpty (s : PState) : PState × Nat :=
  let (oid, s1) := order_id s
  let o : Order := { oid := oid, products := [], created_date := s1.today }
  ({ s1 with orderHeap := s1.orderHeap ++ [o], orderList := s1.orderList ++ [oid] }, oid)

/-- The `order_validation` decorator (src/order.py lines 66-78): raises when
the order is checked out (checked first) or no longer in `Order.orders`. -/
def order_check (s : PState) (oid : Nat) : Option PyErr :=
  match getOrder s oid with
  | none => some (.valueError "dangling reference")
  | some o =>
    if o.checkout_status then
      some (.valueError "Unable to edit order, you have already checked out!")
    else if !(s.orderList.contains oid) then some (.valueError "Order does not exist")
    else none

/-- `Order.add_product` (src/order.py lines 80-94): after the decorator
check, raises (uncaught!) if `qty` exceeds the source quantity; then, inside
a `try` catching ValueError, splits the source, marks the new unit reserved
(through the buggy setter, writing `_incart`), and appends it to the cart.
Result `.ok true` is the normal return of `self`; `.ok false` is the caught
path that prints and returns `None` — with every state change made by the
failed split kept. -/
def Order.add_product (s : PState) (oid pid : Nat) (qty : Int) :
    PState × Except PyErr Bool :=
  match order_check s oid with
  | some e => (s, .error e)
  | none =>
    match getProd s pid with
    | none => (s, .error (.valueError "dangling reference"))
    | some p =>
      if p.quantity < qty then
        (s, .error (.valueError ("Only " ++ toString p.quantity ++ " items available")))
      else
        match Product.new s pid qty with
        | (s1, none) => (s1, .ok false)
        | (s1, some nid) =>
          let s2 :=
            match getProd s1 nid with
            | some np => setProd s1 { np with attr_incart := true }
            | none => s1
          match getOrder s2 oid with
          | none => (s2, .error (.valueError "dangling reference"))
          | some o => (setOrder s2 { o with products := o.products ++ [nid] }, .ok true)

/-- `Order.remove_product` (src/order.py lines 96-111): raises if no cart
element compares equal to the argument; otherwise un-reserves the ARGUMENT
(through the buggy setter) and pops the FIRST cart element that compares
equal — not necessarily the argument. -/
def Order.remove_product (s : PState) (oid pid : Nat) : PState × Except PyErr Unit :=
  match order_check s oid with
  | some e => (s, .error e)
  | none =>
    match getOrder s oid with
    | none => (s, .error (.valueError "dangling reference"))
    | some o =>
      match pyIndexOf s o.products pid with
      | none => (s, .error (.valueError "Product not in order cart"))
      | some i =>
        let s1 :=
          match getProd s pid with
          | some p => setProd s { p with attr_incart := false }
          | none => s
        match getOrder s1 oid with
        | none => (s1, .error (.valueError "dangling reference"))
        | some o1 => (setOrder s1 { o1 with products := o1.products.eraseIdx i }, .ok ())

/-- The sibling lookup inside `Order.update_product_quantity` (src/order.py
line 130): `next((p for p in Product.products if p.parent_id ==
product.parent_id and not p.in_cart), None)`.  Evaluating `p.in_cart` reads
the never-written `_in_cart` attribute, so the first parent-id match raises
AttributeError. -/
def findGlobalProd (s : PState) (parent : Nat) : List Nat → Except PyErr (Option Product)
  | [] => .ok none
  | qid :: rest =>
    match getProd s qid with
    | none => findGlobalProd s parent rest
    | some q =>
      if q.parent_id == parent then
        match q.in_cart_get with
        | .error e => .error e
        | .ok b => if b then findGlobalProd s parent rest else .ok (some q)
      else findGlobalProd s parent rest

/-- `Order.update_product_quantity` (src/order.py lines 113-151): decorator
check; cart membership; `new_qty` must be a nonzero positive integer
different from the current line quantity; then the unreserved-sibling lookup
(which in fact always raises, see `findGlobalProd`); then the stock ceiling
check against the sibling and the two mutation branches. -/
def Order.update_product_quantity (s : PState) (oid pid : Nat) (new_qty : Int) :
    PState × Except PyErr Unit :=
  match order_check s oid with
  | some e => (s, .error e)
  | none =>
    match getOrder s oid, getProd s pid with
    | some o, some p =>
      if !(pyMem s o.products pid) then
        (s, .error (.valueError "Product not in order cart"))
      else if new_qty == 0 || new_qty ≤ 0 || new_qty == p.quantity then
        (s, .error (.valueError "Enter a valid quantity"))
      else
        match findGlobalProd s p.parent_id s.registry with
        | .error e => (s, .error e)
        | .ok none =>
          (s, .error (.valueError ("Original product '" ++ p.name ++
            "' not found in global inventory. Cannot validate stock.")))
        | .ok (some g) =>
          let delta : Int := |p.quantity - new_qty|
          if g.quantity < new_qty then
            (s, .error (.valueError ("Cannot set quantity to " ++ toString new_qty ++
              " for '" ++ p.name ++ "'.Only " ++ toString g.quantity ++
              " items are available")))
          else if p.quantity < new_qty then
            let s1 := setProd s { p with quantity := new_qty }
            Product.remove_inventory s1 g.product_id delta
          else
            let s1 := setProd s { p with quantity := new_qty }
            Product.add_inventory s1 g.product_id (.vint delta)
    | _, _ => (s, .error (.valueError "dangling reference"))

/-- `Order.clear_products` (src/order.py lines 153-157): decorator check,
then `self.products = []` through the products setter.  Nothing is returned
to catalog stock. -/
def Order.clear_products (s : PState) (oid : Nat) : PState × Except PyErr Unit :=
  match order_check s oid with
  | some e => (s, .error e)
  | none =>
    match getOrder s oid with
    | none => (s, .error (.valueError "dangling reference"))
    | some o => (setOrder s { o with products := [] }, .ok ())

/-- `Order.delete` (src/order.py lines 159-163): decorator check, then the
order is removed from `Order.orders` (by identity; order ids are unique). -/
def Order.delete (s : PState) (oid : Nat) : PState × Except PyErr Unit :=
  match order_check s oid with
  | some e => (s, .error e)
  | none => ({ s with orderList := s.orderList.erase oid }, .ok ())

/-- `Order.total_price` (src/order.py lines 166-175): raises when the order
was deleted from `Order.orders`, otherwise sums quantity times price over the
cart.  (The formatted-string presentation is not modelled.) -/
def Order.total_price (s : PState) (oid : Nat) : Except PyErr Rat :=
  if !(s.orderList.contains oid) then .error (.valueError "Order does not exist")
  else
    match getOrder s oid with
    | none => .error (.valueError "dangling reference")
    | some o =>
      .ok (o.products.foldl
        (fun acc pid =>
          match getProd s pid with
          | some p => acc + (p.quantity : Rat) * p.price
          | none => acc) 0)

/-- `Order.checkout` (src/order.py lines 202-212): raises (reporting the
stored date) when already checked out; prints and returns, with no state
change, on an empty cart; otherwise sets the checkout flag and date and then
evaluates `self.total_price` for the confirmation message — whose
"order does not exist" ValueError, for an order deleted from `Order.orders`,
propagates AFTER the flag and date were already set. -/
def Order.checkout (s : PState) (oid : Nat) : PState × Except PyErr Unit :=
  match getOrder s oid with
  | none => (s, .error (.valueError "dangling reference"))
  | some o =>
    if o.checkout_status then
      (s, .error (.valueError ("Already checked out. Checkout date: " ++
        (match o.checkout_date with | some d => d | none => "None"))))
    else if o.products.isEmpty then (s, .ok ())
    else
      let s1 := setOrder s { o with checkout_status := true, checkout_date := some s.today }
      match Order.total_price s1 oid with
      | .error e => (s1, .error e)
      | .ok _ => (s1, .ok ())

/-- The available-product listing at the core of `Customer.product_table`
(src/customer.py line 256): `[prod for prod in Product.products if not
prod.in_cart]` — every element inspected reads the broken `in_cart`
property. -/
def availableProducts (s : PState) : Except PyErr (List Product) :=
  go s.registry
where
  go : List Nat → Except PyErr (List Product)
    | [] => .ok []
    | qid :: rest =>
      match getProd s qid with
      | none => go rest
      | some q =>
        match q.in_cart_get with
        | .error e => .error e
        | .ok b =>
          match go rest with
          | .error e => .error e
          | .ok l => .ok (if b then l else q :: l)

/-- The states reachable by the program: the interpreter's initial state
followed by any sequence of the modelled public operations. -/
inductive Reach : PState → Prop where
  | start (today : String) : Reach (emptyState today)
  | prod_init (s : PState) (n c : String) (pr q : PyVal) :
      Reach s → Reach (Product.init s n c pr q).1
  | add_inv (s : PState) (pid : Nat) (v : PyVal) :
      Reach s → Reach (Product.add_inventory s pid v).1
  | rem_inv (s : PState) (pid : Nat) (v : Int) :
      Reach s → Reach (Product.remove_inventory s pid v).1
  | split (s : PState) (pid : Nat) (q : Int) (u : Bool) :
      Reach s → Reach (Product.new s pid q u).1
  | pdel (s : PState) (pid : Nat) :
      Reach s → Reach (delete_product s pid).1
  | oinit (s : PState) :
      Reach s → Reach (Order.initEmpty s).1
  | oadd (s : PState) (oid pid : Nat) (q : Int) :
      Reach s → Reach (Order.add_product s oid pid q).1
  | orem (s : PState) (oid pid : Nat) :
      Reach s → Reach (Order.remove_product s oid pid).1
  | oupd (s : PState) (oid pid : Nat) (q : Int) :
      Reach s → Reach (Order.update_product_quantity s oid pid q).1
  | oclear (s : PState) (oid : Nat) :
      Reach s → Reach (Order.clear_products s oid).1
  | odel (s : PState) (oid : Nat) :
      Reach s → Reach (Order.delete s oid).1
  | ocheck (s : PState) (oid : Nat) :
      Reach s → Reach (Order.checkout s oid).1

/-- The id the next `generate_id` call will hand out. -/
def nextId (s : PState) : Nat :=
  match s.counter with
  | none => 100000
  | some n => n + 1

/-- No product object carries the `_in_cart` attribute: the `in_cart` setter
only ever writes `_incart`, so reading the flag raises AttributeError. -/
def NoCartFlag (s : PState) : Prop :=
  ∀ p ∈ s.heap, p.attr_in_cart = none

/-- Every id in the `Product.products` registry dereferences to a live heap
object (Python guarantees this trivially: the registry holds the objects
themselves). -/
def RegWF (s : PState) : Prop :=
  ∀ pid ∈ s.registry, (getProd s pid).isSome

/-- The state invariant needed for the reachability arguments. -/
def StInv (s : PState) : Prop :=
  NoCartFlag s ∧ RegWF s

/-- A fixed run date for the concrete executions below. -/
def exToday : String := "2025-01-01"

/-- Catalog seeded with `Product("Mouse", "Electronics", 30, 50)` (compare
src/main.py); the product gets id 100000. -/
def exS1 : PState :=
  (Product.init (emptyState exToday) "Mouse" "Electronics" (.vint 30) (.vint 50)).1

/-- `exS1` plus one empty open order, id 10000. -/
def exS2 : PState := (Order.initEmpty exS1).1

/-- `exS2` after `order.add_product(mouse, 5)`: the cart holds the split-off
unit 100001 with quantity 5 and the catalog remainder has quantity 45. -/
def exS3 : PState := (Order.add_product exS2 10000 100000 5).1

/-- `exS1` after `mouse.new(5)`: child unit 100001 (parent 100000, qty 5),
source left at 45. -/
def exSplit : PState := (Product.new exS1 100000 5).1

/-- `exS3` after `order.checkout()`. -/
def exS4 : PState := (Order.checkout exS3 10000).1

/-- The catalog Mouse object as it sits in `exS1`. -/
def exMouse : Product :=
  { product_id := 100000, parent_id := 100000, name := "Mouse",
    category := "Electronics", price := 30, quantity := 50, attr_incart := false }

/-- The (still open) order object of `exS3`. -/
def exOrder3 : Order :=
  { oid := 10000, products := [100001], created_date := exToday }

/-- The checked-out order object of `exS4`. -/
def exOrder4 : Order :=
  { oid := 10000, products := [100001], created_date := exToday,
    checkout_date := some exToday, checkout_status := true }

/-- The unit `Product.new` constructs from source `p` with quantity `qty` in
state `s`, as `Product.__init__` leaves it (parent id still = own id). -/
def newUnitPre (s : PState) (p : Product) (qty : Int) : Product :=
  { product_id := nextId s, parent_id := nextId s, name := p.name,
    category := p.category, price := p.price, quantity := qty, attr_incart := false }

/-- The same unit after `new` repoints its parent id at the source
(src/products.py line 151). -/
def newUnit (s : PState) (p : Product) (qty : Int) : Product :=
  { product_id := nextId s, parent_id := p.product_id, name := p.name,
    category := p.category, price := p.price, quantity := qty, attr_incart := false }

/-- The state reached inside `Product.new` right after the constructor call. -/
def initState (s : PState) (p : Product) (qty : Int) : PState :=
  { s with counter := some (nextId s),
           heap := s.heap ++ [newUnitPre s p qty],
           registry := s.registry ++ [nextId s] }

/-- The state reached inside `Product.new` after the parent-id repointing,
just before `remove_inventory` runs on the source. -/
def splitMidState (s : PState) (p : Product) (qty : Int) : PState :=
  { s with counter := some (nextId s),
           heap := s.heap ++ [newUnit s p qty],
           registry := s.registry ++ [nextId s] }

/-! ### Supporting lemmas about `title()` and `strip()`

These establish that the stored normal form of a name or category is a fixed
point of re-normalization, which is what makes `Product.new`'s re-run of the
constructor keep the source's name and category unchanged. -/

theorem charToNat_ofNat {n : Nat} (h : n.isValidChar) : (Char.ofNat n).toNat = n := by
  simp [Char.ofNat, dif_pos h, Char.ofNatAux, Char.toNat, UInt32.toNat]

theorem upChar_toNat_of {c : Char} (h : 97 ≤ c.toNat ∧ c.toNat ≤ 122) :
    (upChar c).toNat = c.toNat - 32 := by
  rw [upChar, if_pos h, charToNat_ofNat (Or.inl (by omega))]

theorem upChar_of_not {c : Char} (h : ¬(97 ≤ c.toNat ∧ c.toNat ≤ 122)) : upChar c = c := by
  rw [upChar, if_neg h]

theorem lowChar_toNat_of {c : Char} (h : 65 ≤ c.toNat ∧ c.toNat ≤ 90) :
    (lowChar c).toNat = c.toNat + 32 := by
  rw [lowChar, if_pos h, charToNat_ofNat (Or.inl (by omega))]

theorem lowChar_of_not {c : Char} (h : ¬(65 ≤ c.toNat ∧ c.toNat ≤ 90)) : lowChar c = c := by
  rw [lowChar, if_neg h]

theorem upChar_upChar (c : Char) : upChar (upChar c) = upChar c := by
  by_cases h : 97 ≤ c.toNat ∧ c.toNat ≤ 122
  · exact upChar_of_not (by rw [upChar_toNat_of h]; omega)
  · rw [upChar_of_not h]
    exact upChar_of_not h

theorem lowChar_lowChar (c : Char) : lowChar (lowChar c) = lowChar c := by
  by_cases h : 65 ≤ c.toNat ∧ c.toNat ≤ 90
  · exact lowChar_of_not (by rw [lowChar_toNat_of h]; omega)
  · rw [lowChar_of_not h]
    exact lowChar_of_not h

theorem isCased_upChar (c : Char) : isCased (upChar c) = isCased c := by
  by_cases h : 97 ≤ c.toNat ∧ c.toNat ≤ 122
  · simp only [isCased, decide_eq_decide, upChar_toNat_of h]
    omega
  · rw [upChar_of_not h]

theorem isCased_lowChar (c : Char) : isCased (lowChar c) = isCased c := by
  by_cases h : 65 ≤ c.toNat ∧ c.toNat ≤ 90
  · simp only [isCased, decide_eq_decide, lowChar_toNat_of h]
    omega
  · rw [lowChar_of_not h]

theorem isPySpace_upChar (c : Char) : isPySpace (upChar c) = isPySpace c := by
  by_cases h : 97 ≤ c.toNat ∧ c.toNat ≤ 122
  · simp only [isPySpace, decide_eq_decide, upChar_toNat_of h]
    omega
  · rw [upChar_of_not h]

theorem isPySpace_lowChar (c : Char) : isPySpace (lowChar c) = isPySpace c := by
  by_cases h : 65 ≤ c.toNat ∧ c.toNat ≤ 90
  · simp only [isPySpace, decide_eq_decide, lowChar_toNat_of h]
    omega
  · rw [lowChar_of_not h]

theorem not_isCased_of_isPySpace {c : Char} (h : isPySpace c = true) : isCased c = false := by
  simp only [isPySpace, decide_eq_true_eq] at h
  simp only [isCased, decide_eq_false_iff_not]
  omega

theorem titleMap_of_not_cased {b : Bool} {c : Char} (h : isCased c = false) :
    titleMap b c = c := by
  rw [titleMap, if_neg (by simp [h])]

theorem isCased_titleMap (b : Bool) (c : Char) : isCased (titleMap b c) = isCased c := by
  rw [titleMap]
  split
  · cases b
    · exact isCased_upChar c
    · exact isCased_lowChar c
  · rfl

theorem isPySpace_titleMap (b : Bool) (c : Char) : isPySpace (titleMap b c) = isPySpace c := by
  rw [titleMap]
  split
  · cases b
    · exact isPySpace_upChar c
    · exact isPySpace_lowChar c
  · rfl

theorem titleMap_titleMap (b : Bool) (c : Char) : titleMap b (titleMap b c) = titleMap b c := by
  by_cases hc : isCased c = true
  · cases b
    · have h1 : titleMap false c = upChar c := by
        rw [titleMap, if_pos hc]
        rfl
      rw [h1, titleMap, if_pos (by rw [isCased_upChar]; exact hc)]
      exact upChar_upChar c
    · have h1 : titleMap true c = lowChar c := by
        rw [titleMap, if_pos hc]
        rfl
      rw [h1, titleMap, if_pos (by rw [isCased_lowChar]; exact hc)]
      exact lowChar_lowChar c
  · have h1 : titleMap b c = c := titleMap_of_not_cased (by simpa using hc)
    rw [h1, h1]

theorem pyTitleGo_idem (l : List Char) : ∀ b, pyTitleGo b (pyTitleGo b l) = pyTitleGo b l := by
  induction l with
  | nil => intro b; rfl
  | cons c cs ih =>
    intro b
    simp only [pyTitleGo]
    rw [titleMap_titleMap, isCased_titleMap, ih (isCased c)]

theorem pyTitleGo_eq_nil {b : Bool} {l : List Char} : pyTitleGo b l = [] ↔ l = [] := by
  cases l <;> simp [pyTitleGo]

theorem stripL_pyTitleGo (l : List Char) :
    stripL (pyTitleGo false l) = pyTitleGo false (stripL l) := by
  induction l with
  | nil => rfl
  | cons c cs ih =>
    by_cases h : isPySpace c = true
    · have hc : isCased c = false := not_isCased_of_isPySpace h
      have hm : titleMap false c = c := titleMap_of_not_cased hc
      simp only [pyTitleGo, stripL, hm, hc, List.dropWhile_cons_of_pos h]
      exact ih
    · have hm : ¬ isPySpace (titleMap false c) = true := by
        rw [isPySpace_titleMap]
        simpa using h
      have hcc : ¬ isPySpace c = true := by simpa using h
      show stripL (titleMap false c :: pyTitleGo (isCased c) cs)
          = pyTitleGo false (stripL (c :: cs))
      simp only [stripL, List.dropWhile_cons_of_neg hm, List.dropWhile_cons_of_neg hcc]
      rfl

theorem stripR_cons_of_nil {c : Char} {cs : List Char} (hr : stripR cs = []) :
    stripR (c :: cs) = if isPySpace c then [] else [c] := by
  rw [show stripR (c :: cs) = (match stripR cs with
    | [] => if isPySpace c then [] else [c]
    | r => c :: r) from rfl, hr]

theorem stripR_cons_of_cons {c x : Char} {cs xs : List Char} (hr : stripR cs = x :: xs) :
    stripR (c :: cs) = c :: x :: xs := by
  rw [show stripR (c :: cs) = (match stripR cs with
    | [] => if isPySpace c then [] else [c]
    | r => c :: r) from rfl, hr]

theorem stripR_eq_nil {l : List Char} : stripR l = [] ↔ ∀ c ∈ l, isPySpace c = true := by
  induction l with
  | nil => simp [stripR]
  | cons c cs ih =>
    cases hr : stripR cs with
    | nil =>
      have hall : ∀ d ∈ cs, isPySpace d = true := ih.mp hr
      rw [stripR_cons_of_nil hr]
      by_cases h : isPySpace c = true
      · rw [if_pos h]
        constructor
        · intro _ d hd
          rcases List.mem_cons.mp hd with h1 | h1
          · rw [h1]; exact h
          · exact hall d h1
        · intro _
          rfl
      · rw [if_neg h]
        constructor
        · intro hc
          exact absurd hc (by simp)
        · intro hAll
          exact absurd (hAll c (List.mem_cons_self c cs)) h
    | cons x xs =>
      rw [stripR_cons_of_cons hr]
      constructor
      · intro hc
        exact absurd hc (by simp)
      · intro hAll
        have hnil : stripR cs = [] := ih.mpr (fun d hd => hAll d (List.mem_cons_of_mem c hd))
        rw [hnil] at hr
        exact absurd hr.symm (List.cons_ne_nil x xs)

theorem stripR_pyTitleGo (l : List Char) :
    ∀ b, stripR (pyTitleGo b l) = pyTitleGo b (stripR l) := by
  induction l with
  | nil => intro b; rfl
  | cons c cs ih =>
    intro b
    rw [show pyTitleGo b (c :: cs) = titleMap b c :: pyTitleGo (isCased c) cs from rfl]
    cases hr : stripR cs with
    | nil =>
      have hgo : stripR (pyTitleGo (isCased c) cs) = [] := by
        rw [ih (isCased c), hr]
        rfl
      rw [stripR_cons_of_nil hgo, stripR_cons_of_nil hr, isPySpace_titleMap]
      by_cases h : isPySpace c = true
      · rw [if_pos h, if_pos h]
        rfl
      · rw [if_neg h, if_neg h]
        rfl
    | cons x xs =>
      have hgo : stripR (pyTitleGo (isCased c) cs)
          = titleMap (isCased c) x :: pyTitleGo (isCased x) xs := by
        rw [ih (isCased c), hr]
        rfl
      rw [stripR_cons_of_cons hgo, stripR_cons_of_cons hr]
      rfl

theorem dropWhile_dropWhile_self {α : Type} (p : α → Bool) (l : List α) :
    (l.dropWhile p).dropWhile p = l.dropWhile p := by
  induction l with
  | nil => rfl
  | cons c cs ih =>
    by_cases h : p c = true
    · rw [List.dropWhile_cons_of_pos h]
      exact ih
    · rw [List.dropWhile_cons_of_neg (by simpa using h),
        List.dropWhile_cons_of_neg (by simpa using h)]

theorem stripL_stripL (l : List Char) : stripL (stripL l) = stripL l :=
  dropWhile_dropWhile_self isPySpace l

theorem stripR_stripR (l : List Char) : stripR (stripR l) = stripR l := by
  induction l with
  | nil => rfl
  | cons c cs ih =>
    cases hr : stripR cs with
    | nil =>
      rw [stripR_cons_of_nil hr]
      by_cases h : isPySpace c = true
      · rw [if_pos h]
        rfl
      · rw [if_neg h]
        rw [stripR_cons_of_nil (show stripR [] = [] from rfl), if_neg h]
    | cons x xs =>
      rw [stripR_cons_of_cons hr]
      rw [hr] at ih
      exact stripR_cons_of_cons ih

theorem stripL_stripR (l : List Char) : stripL (stripR l) = stripR (stripL l) := by
  induction l with
  | nil => rfl
  | cons c cs ih =>
    by_cases h : isPySpace c = true
    · have hsl : stripL (c :: cs) = stripL cs := List.dropWhile_cons_of_pos h
      cases hr : stripR cs with
      | nil =>
        have hall : ∀ d ∈ cs, isPySpace d = true := stripR_eq_nil.mp hr
        have hL : stripL cs = [] := List.dropWhile_eq_nil_iff.mpr hall
        rw [stripR_cons_of_nil hr, if_pos h, hsl, hL]
        rfl
      | cons x xs =>
        rw [stripR_cons_of_cons hr, hsl, ← hr, ← ih, hr]
        exact List.dropWhile_cons_of_pos h
    · have hne : ¬ isPySpace c = true := by simpa using h
      have hsl : stripL (c :: cs) = c :: cs := List.dropWhile_cons_of_neg hne
      rw [hsl]
      cases hr : stripR cs with
      | nil =>
        rw [stripR_cons_of_nil hr, if_neg h, stripL, List.dropWhile_cons_of_neg hne]
      | cons x xs =>
        rw [stripR_cons_of_cons hr, stripL, List.dropWhile_cons_of_neg hne]

theorem pyStrip_pyTitleGo (l : List Char) :
    pyStrip (pyTitleGo false l) = pyTitleGo false (pyStrip l) := by
  rw [pyStrip, pyStrip, stripL_pyTitleGo, stripR_pyTitleGo]

theorem pyStrip_idem (l : List Char) : pyStrip (pyStrip l) = pyStrip l := by
  show stripR (stripL (stripR (stripL l))) = stripR (stripL l)
  rw [stripL_stripR, stripL_stripL, stripR_stripR]

theorem pyStrip_titleGo_fix (d : List Char) :
    pyStrip (pyTitleGo false (pyStrip (pyTitleGo false d))) = pyStrip (pyTitleGo false d) := by
  rw [← pyStrip_pyTitleGo, pyTitleGo_idem, pyStrip_idem]

/-- Re-normalizing a stored category gives it back: the `category` setter's
output is a fixed point of `title().strip()`. -/
theorem storeNorm_storeNorm (s : String) : storeNorm (storeNorm s) = storeNorm s :=
  congrArg String.mk (pyStrip_titleGo_fix s.data)

/-- Re-running the constructor's name normalization on a stored name gives it
back: what `Product.new` passes through `Product.__init__` keeps the source's
name unchanged. -/
theorem initNameStored_fix (raw : String) :
    storeNorm (pyTitle (initNameStored raw)) = initNameStored raw := by
  apply congrArg String.mk
  show pyStrip (pyTitleGo false (pyTitleGo false (pyStrip (pyTitleGo false
      (pyTitleGo false raw.data)))))
    = pyStrip (pyTitleGo false (pyTitleGo false raw.data))
  rw [pyTitleGo_idem, pyTitleGo_idem, pyStrip_titleGo_fix]

theorem pyTitle_ne_empty {s : String} (h : s ≠ "") : pyTitle s ≠ "" := by
  intro hc
  apply h
  cases s with
  | mk d =>
    cases d with
    | nil => rfl
    | cons c cs =>
      have hd := congrArg String.data hc
      simp [pyTitle, pyTitleGo] at hd

/-! ### Supporting lemmas about heap lookup and update -/

theorem find?_cons_pos {α : Type} (p : α → Bool) {a : α} (l : List α) (h : p a = true) :
    List.find? p (a :: l) = some a := by
  simp [List.find?, h]

theorem find?_cons_neg {α : Type} (p : α → Bool) {a : α} (l : List α) (h : p a = false) :
    List.find? p (a :: l) = List.find? p l := by
  simp [List.find?, h]

theorem find?_update_self {α : Type} (key : α → Nat) (old b : α) (l : List α)
    (h : l.find? (fun q => key q == key old) = some old) (hk : key b = key old) :
    (l.map (fun q => if key q == key b then b else q)).find? (fun q => key q == key old)
      = some b := by
  induction l with
  | nil => simp at h
  | cons a as ih =>
    cases ha : key a == key old with
    | true =>
      rw [find?_cons_pos (fun q => key q == key old) as ha] at h
      have hao : a = old := by injection h
      have hmap : (if key a == key b then b else a) = b := by
        rw [if_pos (show (key a == key b) = true by
          rw [hao, hk]; exact beq_iff_eq.mpr rfl)]
      rw [List.map_cons, hmap]
      exact find?_cons_pos (fun q => key q == key old) _
        (show (key b == key old) = true by rw [hk]; exact beq_iff_eq.mpr rfl)
    | false =>
      rw [find?_cons_neg (fun q => key q == key old) as ha] at h
      have hne : key a ≠ key old := by simpa using ha
      have hmap : (if key a == key b then b else a) = a := by
        rw [if_neg]
        intro hx
        exact hne (by rw [(by simpa using hx : key a = key b), hk])
      rw [List.map_cons, hmap, find?_cons_neg (fun q => key q == key old) _ ha]
      exact ih h

theorem find?_update_ne {α : Type} (key : α → Nat) (b : α) (k : Nat) (l : List α)
    (h : k ≠ key b) :
    (l.map (fun q => if key q == key b then b else q)).find? (fun q => key q == k)
      = l.find? (fun q => key q == k) := by
  induction l with
  | nil => rfl
  | cons a as ih =>
    cases hab : key a == key b with
    | true =>
      have hae : key a = key b := by simpa using hab
      have hbk : (key b == k) = false := beq_eq_false_iff_ne.mpr (Ne.symm h)
      have hak : (key a == k) = false := by rw [hae]; exact hbk
      rw [List.map_cons, if_pos hab, find?_cons_neg (fun q => key q == k) _ hbk,
        find?_cons_neg (fun q => key q == k) _ hak]
      exact ih
    | false =>
      rw [List.map_cons, if_neg (by simp [hab])]
      cases hak : key a == k with
      | true =>
        rw [find?_cons_pos (fun q => key q == k) _ hak,
          find?_cons_pos (fun q => key q == k) _ hak]
      | false =>
        rw [find?_cons_neg (fun q => key q == k) _ hak,
          find?_cons_neg (fun q => key q == k) _ hak]
        exact ih

theorem mem_of_findP {heap : List Product} {pid : Nat} {p : Product}
    (h : findP heap pid = some p) : p ∈ heap ∧ p.product_id = pid := by
  refine ⟨List.mem_of_find?_eq_some h, ?_⟩
  have := List.find?_some h
  simpa using this

theorem mem_of_findO {oheap : List Order} {oid : Nat} {o : Order}
    (h : findO oheap oid = some o) : o ∈ oheap ∧ o.oid = oid := by
  refine ⟨List.mem_of_find?_eq_some h, ?_⟩
  have := List.find?_some h
  simpa using this

theorem findP_updP_self {heap : List Product} {pid : Nat} {p b : Product}
    (h : findP heap pid = some p) (hb : b.product_id = p.product_id) :
    findP (updP heap b) pid = some b := by
  obtain ⟨-, hpid⟩ := mem_of_findP h
  subst hpid
  exact find?_update_self Product.product_id p b heap h hb

theorem findP_updP_ne {heap : List Product} {pid : Nat} {b : Product}
    (h : pid ≠ b.product_id) :
    findP (updP heap b) pid = findP heap pid :=
  find?_update_ne Product.product_id b pid heap h

theorem findO_updO_self {oheap : List Order} {oid : Nat} {o b : Order}
    (h : findO oheap oid = some o) (hb : b.oid = o.oid) :
    findO (updO oheap b) oid = some b := by
  obtain ⟨-, hoid⟩ := mem_of_findO h
  subst hoid
  exact find?_update_self Order.oid o b oheap h hb

theorem findO_updO_ne {oheap : List Order} {oid : Nat} {b : Order}
    (h : oid ≠ b.oid) :
    findO (updO oheap b) oid = findO oheap oid :=
  find?_update_ne Order.oid b oid oheap h

theorem mem_updP {heap : List Product} {b q : Product} (h : q ∈ updP heap b) :
    q = b ∨ q ∈ heap := by
  rw [updP, List.mem_map] at h
  obtain ⟨r, hr, hrq⟩ := h
  by_cases hc : (r.product_id == b.product_id) = true
  · rw [if_pos hc] at hrq
    exact Or.inl hrq.symm
  · rw [if_neg hc] at hrq
    exact Or.inr (hrq ▸ hr)

theorem updP_ids (heap : List Product) (b : Product) :
    (updP heap b).map Product.product_id = heap.map Product.product_id := by
  rw [updP, List.map_map]
  apply List.map_congr_left
  intro q _
  by_cases hc : (q.product_id == b.product_id) = true
  · simp only [Function.comp_apply, if_pos hc]
    exact (by simpa using hc : q.product_id = b.product_id).symm
  · simp only [Function.comp_apply, if_neg hc]

theorem findP_isSome_iff (heap : List Product) (pid : Nat) :
    (findP heap pid).isSome ↔ pid ∈ heap.map Product.product_id := by
  rw [findP, List.find?_isSome, List.mem_map]
  constructor
  · rintro ⟨x, hx, hpx⟩
    exact ⟨x, hx, by simpa using hpx⟩
  · rintro ⟨x, hx, hpx⟩
    exact ⟨x, hx, by simp [hpx]⟩

theorem findP_append (h1 h2 : List Product) (pid : Nat) :
    findP (h1 ++ h2) pid = (findP h1 pid).or (findP h2 pid) :=
  List.find?_append

/-! ### State invariant preservation -/

theorem generate_id_eq (s : PState) :
    generate_id s = (nextId s, { s with counter := some (nextId s) }) := by
  unfold generate_id nextId
  cases s.counter <;> rfl

theorem order_id_eq (s : PState) :
    order_id s = ((match s.orderCounter with | none => 10000 | some n => n + 1),
      { s with orderCounter := some (match s.orderCounter with
          | none => 10000 | some n => n + 1) }) := by
  unfold order_id
  cases s.orderCounter <;> rfl

theorem NoCartFlag_setProd {s : PState} {p : Product} (h : NoCartFlag s)
    (hp : p.attr_in_cart = none) : NoCartFlag (setProd s p) := by
  intro q hq
  rcases mem_updP hq with rfl | hq2
  · exact hp
  · exact h q hq2

theorem RegWF_setProd {s : PState} {p : Product} (h : RegWF s) : RegWF (setProd s p) := by
  intro pid hpid
  have h1 := h pid hpid
  show (findP (updP s.heap p) pid).isSome
  rw [findP_isSome_iff, updP_ids, ← findP_isSome_iff]
  exact h1

theorem StInv_setProd {s : PState} {p : Product} (h : StInv s)
    (hp : p.attr_in_cart = none) : StInv (setProd s p) :=
  ⟨NoCartFlag_setProd h.1 hp, RegWF_setProd h.2⟩

theorem StInv_append_prod {s : PState} {p : Product} (h : StInv s)
    (hp : p.attr_in_cart = none) :
    StInv { s with heap := s.heap ++ [p], registry := s.registry ++ [p.product_id] } := by
  constructor
  · intro q hq
    rcases List.mem_append.mp hq with hq1 | hq2
    · exact h.1 q hq1
    · rw [List.mem_singleton.mp hq2]
      exact hp
  · intro pid hpid
    show (findP (s.heap ++ [p]) pid).isSome
    rw [findP_append]
    rcases List.mem_append.mp hpid with h1 | h2
    · have h1s := h.2 pid h1
      rw [getProd] at h1s
      cases hfp : findP s.heap pid with
      | none => rw [hfp] at h1s; simp at h1s
      | some x => rfl
    · rw [List.mem_singleton.mp h2]
      have hfind : findP [p] p.product_id = some p :=
        find?_cons_pos (fun q : Product => q.product_id == p.product_id) []
          (beq_iff_eq.mpr rfl)
      rw [hfind]
      cases findP s.heap p.product_id <;> rfl

theorem StInv_delete_product {s : PState} (pid : Nat) (h : StInv s) :
    StInv (delete_product s pid).1 := by
  unfold delete_product
  cases hidx : pyIndexOf s s.registry pid with
  | none => exact h
  | some i => exact ⟨h.1, fun qid hq => h.2 qid (List.mem_of_mem_eraseIdx hq)⟩

theorem StInv_add_int {s : PState} (pid : Nat) (n : Int) (h : StInv s) :
    StInv (Product.add_int s pid n).1 := by
  unfold Product.add_int
  cases hg : getProd s pid with
  | none => exact h
  | some p =>
    have hp := (mem_of_findP hg).1
    exact StInv_setProd h (h.1 p hp)

theorem StInv_sub_int {s : PState} (pid : Nat) (n : Int) (h : StInv s) :
    StInv (Product.sub_int s pid n).1 := by
  unfold Product.sub_int
  split
  · exact h
  next p heq =>
    have hp := (mem_of_findP heq).1
    split
    · exact h
    · split
      · exact StInv_delete_product pid h
      · split
        · exact h
        next q hq => exact StInv_setProd h (h.1 p hp)

theorem StInv_add_inventory {s : PState} (pid : Nat) (v : PyVal) (h : StInv s) :
    StInv (Product.add_inventory s pid v).1 := by
  unfold Product.add_inventory
  repeat' split
  all_goals first
    | exact h
    | exact StInv_add_int pid _ h

theorem StInv_remove_inventory {s : PState} (pid : Nat) (v : Int) (h : StInv s) :
    StInv (Product.remove_inventory s pid v).1 := by
  unfold Product.remove_inventory
  repeat' split
  all_goals first
    | exact h
    | exact StInv_sub_int pid v h

theorem StInv_init {s : PState} (n c : String) (pr q : PyVal) (h : StInv s) :
    StInv (Product.init s n c pr q).1 := by
  simp only [Product.init, generate_id_eq]
  repeat' split
  all_goals first
    | exact h
    | exact (⟨h.1, h.2⟩ : StInv { s with counter := some (nextId s) })
    | exact StInv_append_prod (⟨h.1, h.2⟩ : StInv { s with counter := some (nextId s) }) rfl

theorem StInv_new {s : PState} (pid : Nat) (qty : Int) (u : Bool) (h : StInv s) :
    StInv (Product.new s pid qty u).1 := by
  simp only [Product.new]
  split
  · exact h
  next p heqp =>
    split
    · exact h
    · split
      next s1 e heqI =>
        have hI := StInv_init p.name p.category (.vfloat p.price) (.vint qty) h
        rw [heqI] at hI
        exact hI
      next s1 nid heqI =>
        have hI := StInv_init p.name p.category (.vfloat p.price) (.vint qty) h
        rw [heqI] at hI
        have h2 : StInv (match getProd s1 nid with
            | some np => setProd s1 { np with parent_id := p.product_id }
            | none => s1) := by
          cases hnp : getProd s1 nid with
          | none => exact hI
          | some np => exact StInv_setProd hI (hI.1 np (mem_of_findP hnp).1)
        cases u with
        | true =>
          rw [if_pos rfl]
          have h3 := StInv_remove_inventory pid qty h2
          split
          next s3 u3 heqR =>
            rw [heqR] at h3
            exact h3
          next s3 e3 heqR =>
            rw [heqR] at h3
            exact h3
        | false =>
          rw [if_neg Bool.false_ne_true]
          exact h2

theorem StInv_initEmpty {s : PState} (h : StInv s) : StInv (Order.initEmpty s).1 := by
  simp only [Order.initEmpty, order_id_eq]
  exact ⟨h.1, h.2⟩

theorem StInv_add_product {s : PState} (oid pid : Nat) (qty : Int) (h : StInv s) :
    StInv (Order.add_product s oid pid qty).1 := by
  simp only [Order.add_product]
  split
  · exact h
  · split
    · exact h
    next p heqp =>
      split
      · exact h
      · split
        next s1 heqN =>
          have hN := StInv_new pid qty true h
          rw [heqN] at hN
          exact hN
        next s1 nid heqN =>
          have hN := StInv_new pid qty true h
          rw [heqN] at hN
          have h2 : StInv (match getProd s1 nid with
              | some np => setProd s1 { np with attr_incart := true }
              | none => s1) := by
            cases hnp : getProd s1 nid with
            | none => exact hN
            | some np => exact StInv_setProd hN (hN.1 np (mem_of_findP hnp).1)
          split
          · exact h2
          next o heqO => exact ⟨h2.1, h2.2⟩

theorem StInv_remove_product {s : PState} (oid pid : Nat) (h : StInv s) :
    StInv (Order.remove_product s oid pid).1 := by
  simp only [Order.remove_product]
  split
  · exact h
  · split
    · exact h
    next o heqO =>
      split
      · exact h
      next i heqI =>
        have h1 : StInv (match getProd s pid with
            | some p => setProd s { p with attr_incart := false }
            | none => s) := by
          cases hp : getProd s pid with
          | none => exact h
          | some p => exact StInv_setProd h (h.1 p (mem_of_findP hp).1)
        split
        · exact h1
        next o1 heqO1 => exact ⟨h1.1, h1.2⟩

theorem findGlobalProd_cases {s : PState} (h : NoCartFlag s) (parent : Nat) (l : List Nat) :
    findGlobalProd s parent l = .error .attributeError ∨ findGlobalProd s parent l = .ok none := by
  induction l with
  | nil => exact Or.inr rfl
  | cons qid rest ih =>
    unfold findGlobalProd
    split
    · exact ih
    next q heq =>
      split
      · have hnone : q.attr_in_cart = none := h q (mem_of_findP heq).1
        rw [show q.in_cart_get = Except.error PyErr.attributeError from by
          rw [Product.in_cart_get, hnone]]
        exact Or.inl rfl
      · exact ih

theorem update_always_error {s : PState} (h : NoCartFlag s) (oid pid : Nat) (n : Int) :
    ∃ e, Order.update_product_quantity s oid pid n = (s, .error e) := by
  unfold Order.update_product_quantity
  split
  next e heq => exact ⟨e, rfl⟩
  next heq =>
    split
    next o p heqo heqp =>
      by_cases h1 : (!(pyMem s o.products pid)) = true
      · rw [if_pos h1]
        exact ⟨_, rfl⟩
      · rw [if_neg h1]
        by_cases h2 : (n == 0 || decide (n ≤ 0) || n == p.quantity) = true
        · rw [if_pos h2]
          exact ⟨_, rfl⟩
        · rw [if_neg h2]
          rcases findGlobalProd_cases h p.parent_id s.registry with hE | hN
          · rw [hE]
            exact ⟨_, rfl⟩
          · rw [hN]
            exact ⟨_, rfl⟩
    next => exact ⟨_, rfl⟩

theorem StInv_update {s : PState} (oid pid : Nat) (n : Int) (h : StInv s) :
    StInv (Order.update_product_quantity s oid pid n).1 := by
  obtain ⟨e, he⟩ := update_always_error h.1 oid pid n
  rw [he]
  exact h

theorem StInv_clear {s : PState} (oid : Nat) (h : StInv s) :
    StInv (Order.clear_products s oid).1 := by
  simp only [Order.clear_products]
  repeat' split
  all_goals exact ⟨h.1, h.2⟩

theorem StInv_delete_order {s : PState} (oid : Nat) (h : StInv s) :
    StInv (Order.delete s oid).1 := by
  simp only [Order.delete]
  repeat' split
  all_goals exact ⟨h.1, h.2⟩

theorem StInv_checkout {s : PState} (oid : Nat) (h : StInv s) :
    StInv (Order.checkout s oid).1 := by
  simp only [Order.checkout]
  repeat' split
  all_goals exact ⟨h.1, h.2⟩

/-- Every reachable state satisfies the invariant: no product object ever
carries the `_in_cart` attribute, and the registry only holds live ids. -/
theorem reach_inv {s : PState} (h : Reach s) : StInv s := by
  induction h with
  | start today =>
    constructor
    · intro p hp
      simp [emptyState] at hp
    · intro pid hp
      simp [emptyState] at hp
  | prod_init s n c pr q _ ih => exact StInv_init n c pr q ih
  | add_inv s pid v _ ih => exact StInv_add_inventory pid v ih
  | rem_inv s pid v _ ih => exact StInv_remove_inventory pid v ih
  | split s pid q u _ ih => exact StInv_new pid q u ih
  | pdel s pid _ ih => exact StInv_delete_product pid ih
  | oinit s _ ih => exact StInv_initEmpty ih
  | oadd s oid pid q _ ih => exact StInv_add_product oid pid q ih
  | orem s oid pid _ ih => exact StInv_remove_product oid pid ih
  | oupd s oid pid q _ ih => exact StInv_update oid pid q ih
  | oclear s oid _ ih => exact StInv_clear oid ih
  | odel s oid _ ih => exact StInv_delete_order oid ih
  | ocheck s oid _ ih => exact StInv_checkout oid ih

/-! ### Claims -/

/-- C1: the claim says every Product in the catalog registry has strictly
positive quantity, the invariant being preserved by every operation, with
removal (not a 0 entry) when a quantity reaches 0.  The code violates this:
the quantity setter's `not quantity` check only rejects 0, so construction
registers a product with quantity -2; and `add_inventory`'s broken guard lets
a negative delta drive a registered product's quantity to exactly 0, where it
stays registered. -/
theorem C1_registry_invariant_violated :
    (Product.init (emptyState exToday) "Pen" "Office" (.vint 5) (.vint (-2))).2 = .ok 100000
    ∧ (Product.init (emptyState exToday) "Pen" "Office" (.vint 5) (.vint (-2))).1.registry
        = [100000]
    ∧ (getProd (Product.init (emptyState exToday) "Pen" "Office" (.vint 5) (.vint (-2))).1
        100000).map Product.quantity = some (-2)
    ∧ (Product.add_inventory exS1 100000 (.vint (-50))).2 = .ok ()
    ∧ (getProd (Product.add_inventory exS1 100000 (.vint (-50))).1 100000).map
        Product.quantity = some 0
    ∧ (Product.add_inventory exS1 100000 (.vint (-50))).1.registry = [100000] := by decide

/-- C2: the claim says a failed split inside `add_product` leaves all state
unchanged.  The code violates this for a negative integer quantity: `new(-3)`
constructs and registers a phantom unit with quantity -3 BEFORE
`remove_inventory` raises; the ValueError is caught and reported, the order's
cart and the source are untouched, but the registry and heap have grown. -/
theorem C2_failed_split_leaves_partial_state :
    (Order.add_product exS2 10000 100000 (-3)).2 = .ok false
    ∧ exS2.registry = [100000]
    ∧ (Order.add_product exS2 10000 100000 (-3)).1.registry = [100000, 100001]
    ∧ (getProd (Order.add_product exS2 10000 100000 (-3)).1 100001).map Product.quantity
        = some (-3)
    ∧ (getProd (Order.add_product exS2 10000 100000 (-3)).1 100000).map Product.quantity
        = some 50
    ∧ (getOrder (Order.add_product exS2 10000 100000 (-3)).1 10000).map Order.products
        = some [] := by decide

/-- C3: the claim's scenario — cart line at quantity 5, unreserved sibling at
45 — says `update_product_quantity(product, 10)` succeeds (line 10, sibling
40) and `update_product_quantity(product, 46)` fails gracefully.  In the code
both calls raise AttributeError from the sibling lookup's `p.in_cart` read
(the setter wrote `_incart`, the getter reads `_in_cart`), leaving state
unchanged: the scenario can never succeed. -/
theorem C3_update_scenario_raises_attribute_error :
    (getProd exS3 100001).map Product.quantity = some 5
    ∧ (getProd exS3 100000).map Product.quantity = some 45
    ∧ Order.update_product_quantity exS3 10000 100001 10 = (exS3, .error .attributeError)
    ∧ Order.update_product_quantity exS3 10000 100001 46 = (exS3, .error .attributeError)
        := by decide

/-- C5: the claim says construction fails with a validation error whenever
price is not a number strictly greater than 0 or quantity is not a strictly
positive integer.  The code accepts `Product("Mouse", "Electronics", -30,
-5)`: both setters use falsy checks that admit every nonzero number, so the
product is registered with negative price and quantity (while the valid-input
part of the claim — fresh id, parent id = own id, registration — does hold,
as the same evaluation shows). -/
theorem C5_constructor_accepts_negative_arguments :
    (Product.init (emptyState exToday) "Mouse" "Electronics" (.vint (-30)) (.vint (-5))).2
        = .ok 100000
    ∧ (Product.init (emptyState exToday) "Mouse" "Electronics" (.vint (-30))
        (.vint (-5))).1.registry = [100000]
    ∧ getProd (Product.init (emptyState exToday) "Mouse" "Electronics" (.vint (-30))
          (.vint (-5))).1 100000
        = some { product_id := 100000, parent_id := 100000, name := "Mouse",
                 category := "Electronics", price := -30, quantity := -5,
                 attr_incart := false } := by decide

/-- C6: the claim says `add_inventory(delta)` fails with a validation error
for every delta that is not a strictly positive integer.  The guard reads
`not isinstance(value, int) and value <= 0` — `and` where the docstring
promises `or` — so -5 and 0 pass: -5 silently DECREASES a registered
product's quantity from 50 to 45 and 0 is a silent no-op, while a genuine
positive delta does add exactly delta. -/
theorem C6_add_inventory_accepts_nonpositive_ints :
    (Product.add_inventory exS1 100000 (.vint (-5))).2 = .ok ()
    ∧ (getProd (Product.add_inventory exS1 100000 (.vint (-5))).1 100000).map
        Product.quantity = some 45
    ∧ (Product.add_inventory exS1 100000 (.vint 0)).2 = .ok ()
    ∧ (getProd (Product.add_inventory exS1 100000 (.vint 0)).1 100000).map
        Product.quantity = some 50
    ∧ (Product.add_inventory exS1 100000 (.vint 7)).2 = .ok ()
    ∧ (getProd (Product.add_inventory exS1 100000 (.vint 7)).1 100000).map
        Product.quantity = some 57 := by decide

/-- C7: every mutating operation on an order whose checkout flag is true —
add, remove, update, clear and delete — fails with the "already checked out"
ValueError from the `order_validation` decorator and returns the state
entirely unchanged; in particular `add_product` on a checked-out order with
an empty cart fails with the same error and the cart stays empty, since the
whole state is returned as it was. -/
theorem C7_checked_out_mutations_fail (s : PState) (oid : Nat) (o : Order)
    (ho : getOrder s oid = some o) (hchk : o.checkout_status = true) :
    (∀ pid qty, Order.add_product s oid pid qty
      = (s, .error (.valueError "Unable to edit order, you have already checked out!")))
    ∧ (∀ pid, Order.remove_product s oid pid
      = (s, .error (.valueError "Unable to edit order, you have already checked out!")))
    ∧ (∀ pid n, Order.update_product_quantity s oid pid n
      = (s, .error (.valueError "Unable to edit order, you have already checked out!")))
    ∧ Order.clear_products s oid
      = (s, .error (.valueError "Unable to edit order, you have already checked out!"))
    ∧ Order.delete s oid
      = (s, .error (.valueError "Unable to edit order, you have already checked out!")) := by
  have hc : order_check s oid
      = some (PyErr.valueError "Unable to edit order, you have already checked out!") := by
    simp only [order_check, ho]
    rw [if_pos hchk]
  refine ⟨fun pid qty => ?_, fun pid => ?_, fun pid n => ?_, ?_, ?_⟩
  · unfold Order.add_product
    rw [hc]
  · unfold Order.remove_product
    rw [hc]
  · unfold Order.update_product_quantity
    rw [hc]
  · unfold Order.clear_products
    rw [hc]
  · unfold Order.delete
    rw [hc]

/-- Witness for C7 at the checked-out concrete state `exS4`. -/
theorem C7_witness :
    Order.clear_products exS4 10000
      = (exS4, .error (.valueError "Unable to edit order, you have already checked out!"))
    ∧ Order.add_product exS4 10000 100000 1
      = (exS4, .error (.valueError "Unable to edit order, you have already checked out!")) :=
  ⟨(C7_checked_out_mutations_fail exS4 10000 exOrder4 (by decide) (by decide)).2.2.2.1,
   (C7_checked_out_mutations_fail exS4 10000 exOrder4 (by decide) (by decide)).1 100000 1⟩

/-- C9: `checkout()` on an already-checked-out order raises, reporting the
stored checkout date, with no state change; on an open order with an empty
cart it reports softly and changes nothing; otherwise it sets the checkout
flag and records today's date as the checkout timestamp. -/
theorem C9_checkout_behavior (s : PState) (oid : Nat) (o : Order)
    (ho : getOrder s oid = some o) (hin : s.orderList.contains oid = true) :
    (o.checkout_status = true →
      Order.checkout s oid = (s, .error (.valueError
        ("Already checked out. Checkout date: "
          ++ (match o.checkout_date with | some d => d | none => "None")))))
    ∧ (o.checkout_status = false → o.products = [] →
        Order.checkout s oid = (s, .ok ()))
    ∧ (o.checkout_status = false → o.products ≠ [] →
        Order.checkout s oid
          = (setOrder s { o with checkout_status := true, checkout_date := some s.today },
             .ok ())
        ∧ getOrder (Order.checkout s oid).1 oid
            = some { o with checkout_status := true, checkout_date := some s.today }) := by
  refine ⟨?_, ?_, ?_⟩
  · intro hchk
    simp only [Order.checkout, ho]
    rw [if_pos hchk]
  · intro hchk hemp
    simp only [Order.checkout, ho]
    rw [if_neg (by simp [hchk]), if_pos (by simp [hemp])]
  · intro hchk hne
    have hEm : o.products.isEmpty = false := by
      cases hp : o.products with
      | nil => exact absurd hp hne
      | cons a as => rfl
    have hgo2 :
        getOrder (setOrder s { o with checkout_status := true, checkout_date := some s.today }) oid
          = some { o with checkout_status := true, checkout_date := some s.today } :=
      findO_updO_self ho rfl
    have htp : ∃ x,
        Order.total_price (setOrder s { o with checkout_status := true, checkout_date := some s.today }) oid
          = Except.ok x := by
      unfold Order.total_price
      rw [show (setOrder s { o with checkout_status := true, checkout_date := some s.today }).orderList
        = s.orderList from rfl, hin]
      rw [if_neg (by simp)]
      rw [hgo2]
      exact ⟨_, rfl⟩
    obtain ⟨x, htp⟩ := htp
    have hck : Order.checkout s oid
        = (setOrder s { o with checkout_status := true, checkout_date := some s.today }, .ok ()) := by
      simp only [Order.checkout, ho]
      rw [if_neg (by simp [hchk]), if_neg (by simp [hEm]), htp]
    refine ⟨hck, ?_⟩
    rw [hck]
    exact hgo2

/-- Witness for C9 at the open, nonempty concrete order of `exS3`. -/
theorem C9_witness :
    Order.checkout exS3 10000
      = (setOrder exS3 { exOrder3 with checkout_status := true, checkout_date := some exS3.today },
         .ok ())
    ∧ getOrder (Order.checkout exS3 10000).1 10000
      = some { exOrder3 with checkout_status := true, checkout_date := some exS3.today } :=
  (C9_checkout_behavior exS3 10000 exOrder3 (by decide) (by decide)).2.2 (by decide)
    (by decide)

/-- C10: `clear_products()` on an open, existing order empties that order's
cart and changes nothing else: the result is exactly the input state with
this one order's product list set to [], so the heap (every product's
quantity — no reservation is returned to stock), the catalog registry, the
order list and every other order are untouched. -/
theorem C10_clear_products_frame (s : PState) (oid : Nat) (o : Order)
    (ho : getOrder s oid = some o) (hopen : o.checkout_status = false)
    (hin : s.orderList.contains oid = true) :
    Order.clear_products s oid = (setOrder s { o with products := [] }, .ok ())
    ∧ (Order.clear_products s oid).1.heap = s.heap
    ∧ (Order.clear_products s oid).1.registry = s.registry
    ∧ (Order.clear_products s oid).1.orderList = s.orderList
    ∧ getOrder (Order.clear_products s oid).1 oid = some { o with products := [] }
    ∧ ∀ oid2, oid2 ≠ oid → getOrder (Order.clear_products s oid).1 oid2
        = getOrder s oid2 := by
  have hc : order_check s oid = none := by
    simp only [order_check, ho]
    rw [if_neg (by simp [hopen]), hin]
    rw [if_neg (by simp)]
  have hcl : Order.clear_products s oid
      = (setOrder s { o with products := [] }, .ok ()) := by
    simp only [Order.clear_products, hc, ho]
  have hoid : o.oid = oid := (mem_of_findO ho).2
  refine ⟨hcl, by rw [hcl]; rfl, by rw [hcl]; rfl, by rw [hcl]; rfl, ?_, ?_⟩
  · rw [hcl]
    exact findO_updO_self ho rfl
  · intro oid2 hne2
    rw [hcl]
    exact findO_updO_ne (by show oid2 ≠ o.oid; rw [hoid]; exact hne2)

/-- Witness for C10 at the open concrete order of `exS3`. -/
theorem C10_witness :
    Order.clear_products exS3 10000 = (setOrder exS3 { exOrder3 with products := [] }, .ok ())
    ∧ (Order.clear_products exS3 10000).1.heap = exS3.heap
    ∧ (Order.clear_products exS3 10000).1.registry = exS3.registry :=
  ⟨(C10_clear_products_frame exS3 10000 exOrder3 (by decide) (by decide) (by decide)).1,
   (C10_clear_products_frame exS3 10000 exOrder3 (by decide) (by decide) (by decide)).2.1,
   (C10_clear_products_frame exS3 10000 exOrder3 (by decide) (by decide) (by decide)).2.2.1⟩

/-- C4: in every reachable program state, every read of the `in_cart`
property raises AttributeError (the setter stores `_incart`, the getter reads
the never-written `_in_cart`), and consequently no operation-run that reads
the flag completes normally: `update_product_quantity` always returns an
error leaving the state unchanged (its sibling lookup raises on the first
lineage match, and every earlier exit is itself an error), and the available-
product listing raises AttributeError whenever the registry is nonempty (an
empty registry reads no flag). -/
theorem C4_in_cart_read_always_raises (s : PState) (hs : Reach s) :
    (∀ p ∈ s.heap, p.in_cart_get = Except.error PyErr.attributeError)
    ∧ (∀ oid pid n, ∃ e, Order.update_product_quantity s oid pid n = (s, Except.error e))
    ∧ (s.registry ≠ [] → availableProducts s = Except.error PyErr.attributeError) := by
  have hI := reach_inv hs
  refine ⟨?_, ?_, ?_⟩
  · intro p hp
    rw [Product.in_cart_get, hI.1 p hp]
  · intro oid pid n
    exact update_always_error hI.1 oid pid n
  · intro hne
    cases hreg : s.registry with
    | nil => exact absurd hreg hne
    | cons qid rest =>
      have hq : (getProd s qid).isSome := hI.2 qid (by rw [hreg]; exact List.mem_cons_self qid rest)
      rw [availableProducts, hreg]
      unfold availableProducts.go
      split
      next heqg =>
        rw [heqg] at hq
        simp at hq
      next q heqg =>
        have hnone := hI.1 q (mem_of_findP heqg).1
        rw [show q.in_cart_get = Except.error PyErr.attributeError from by
          rw [Product.in_cart_get, hnone]]

/-- Witness for C4 at the concrete reachable state `exS1` (one catalog
product). -/
theorem C4_witness :
    (exMouse ∈ exS1.heap
      ∧ Product.in_cart_get exMouse = Except.error PyErr.attributeError)
    ∧ (∃ e, Order.update_product_quantity exS1 10000 100000 10 = (exS1, Except.error e))
    ∧ availableProducts exS1 = Except.error PyErr.attributeError :=
  ⟨⟨by decide,
    (C4_in_cart_read_always_raises exS1
      (Reach.prod_init (emptyState exToday) "Mouse" "Electronics" (PyVal.vint 30)
        (PyVal.vint 50) (Reach.start exToday))).1 exMouse (by decide)⟩,
   (C4_in_cart_read_always_raises exS1
      (Reach.prod_init (emptyState exToday) "Mouse" "Electronics" (PyVal.vint 30)
        (PyVal.vint 50) (Reach.start exToday))).2.1 10000 100000 10,
   (C4_in_cart_read_always_raises exS1
      (Reach.prod_init (emptyState exToday) "Mouse" "Electronics" (PyVal.vint 30)
        (PyVal.vint 50) (Reach.start exToday))).2.2 (by decide)⟩

/-! ### Claim C8: split behavior -/

theorem quantity_set_vint {m : Int} (hm : m ≠ 0) : quantity_set (.vint m) = .ok m := by
  unfold quantity_set
  have hc : (!(pyTruthy (PyVal.vint m)) || !(isInstInt (PyVal.vint m))) = false := by
    simp [pyTruthy, isInstInt]
    exact hm
  rw [hc]
  rfl

theorem price_set_vfloat {q : Rat} (hq : q ≠ 0) : price_set (.vfloat q) = .ok q := by
  unfold price_set
  have hc : (!(pyTruthy (PyVal.vfloat q)) || !(isInstNum (PyVal.vfloat q))) = false := by
    simp [pyTruthy, isInstNum]
    exact hq
  rw [hc]
  rfl

theorem init_eq_of_valid (s : PState) (p : Product) (qty : Int)
    (hname : p.name ≠ "") (hnfix : storeNorm (pyTitle p.name) = p.name)
    (hcat : p.category ≠ "") (hcfix : storeNorm p.category = p.category)
    (hprice : p.price ≠ 0) (hq0 : qty ≠ 0) :
    Product.init s p.name p.category (.vfloat p.price) (.vint qty)
      = (initState s p qty, Except.ok (nextId s)) := by
  simp only [Product.init, generate_id_eq, quantity_set_vint hq0, price_set_vfloat hprice,
    initState, newUnitPre]
  rw [if_neg (pyTitle_ne_empty hname), if_neg hcat, hnfix, hcfix]

theorem findP_none_of_fresh {s : PState} (hfresh : ∀ q ∈ s.heap, q.product_id < nextId s) :
    findP s.heap (nextId s) = none := by
  rw [findP, List.find?_eq_none]
  intro x hx hbeq
  exact Nat.ne_of_lt (hfresh x hx) (by simpa using hbeq)

theorem getProd_initState {s : PState} {p : Product} {qty : Int}
    (hfresh : ∀ q ∈ s.heap, q.product_id < nextId s) :
    getProd (initState s p qty) (nextId s) = some (newUnitPre s p qty) := by
  show findP (s.heap ++ [newUnitPre s p qty]) (nextId s) = some (newUnitPre s p qty)
  rw [findP_append, findP_none_of_fresh hfresh]
  exact find?_cons_pos (fun q : Product => q.product_id == nextId s) [] (beq_iff_eq.mpr rfl)

theorem updP_initState {s : PState} {p : Product} {qty : Int}
    (hfresh : ∀ q ∈ s.heap, q.product_id < nextId s) :
    updP (initState s p qty).heap (newUnit s p qty) = s.heap ++ [newUnit s p qty] := by
  show updP (s.heap ++ [newUnitPre s p qty]) (newUnit s p qty) = s.heap ++ [newUnit s p qty]
  rw [updP, List.map_append]
  congr 1
  · have hid : ∀ a ∈ s.heap,
        (if a.product_id == (newUnit s p qty).product_id then newUnit s p qty else a) = a := by
      intro a ha
      rw [if_neg]
      intro hx
      have hax : a.product_id = (newUnit s p qty).product_id := by simpa using hx
      exact Nat.ne_of_lt (hfresh a ha) hax
    calc s.heap.map (fun a => if a.product_id == (newUnit s p qty).product_id
            then newUnit s p qty else a)
        = s.heap.map id := List.map_congr_left (fun a ha => (hid a ha).trans rfl)
      _ = s.heap := List.map_id s.heap
  · simp only [List.map_cons, List.map_nil]
    have hb : ((newUnitPre s p qty).product_id == (newUnit s p qty).product_id) = true :=
      beq_iff_eq.mpr rfl
    rw [if_pos hb]

theorem getProd_splitMidState {s : PState} {pid : Nat} {p : Product} {qty : Int}
    (hp : getProd s pid = some p) :
    getProd (splitMidState s p qty) pid = some p := by
  show findP (s.heap ++ [newUnit s p qty]) pid = some p
  rw [findP_append, show findP s.heap pid = some p from hp]
  rfl

theorem getProd_splitMidState_new {s : PState} {p : Product} {qty : Int}
    (hfresh : ∀ q ∈ s.heap, q.product_id < nextId s) :
    getProd (splitMidState s p qty) (nextId s) = some (newUnit s p qty) := by
  show findP (s.heap ++ [newUnit s p qty]) (nextId s) = some (newUnit s p qty)
  rw [findP_append, findP_none_of_fresh hfresh]
  exact find?_cons_pos (fun q : Product => q.product_id == nextId s) [] (beq_iff_eq.mpr rfl)

theorem new_eq_split (s : PState) (pid : Nat) (p : Product) (qty : Int)
    (hp : getProd s pid = some p)
    (hfresh : ∀ q ∈ s.heap, q.product_id < nextId s)
    (hname : p.name ≠ "") (hnfix : storeNorm (pyTitle p.name) = p.name)
    (hcat : p.category ≠ "") (hcfix : storeNorm p.category = p.category)
    (hprice : p.price ≠ 0)
    (hq : 0 < qty) (hqle : qty ≤ p.quantity) :
    Product.new s pid qty
      = (match Product.remove_inventory (splitMidState s p qty) pid qty with
         | (s3, Except.ok _) => (s3, some (nextId s))
         | (s3, Except.error _) => (s3, none)) := by
  have hcond : ¬((qty == 0 || decide (p.quantity < qty)) = true) := by
    simp
    omega
  simp only [Product.new, hp]
  rw [if_neg hcond]
  rw [init_eq_of_valid s p qty hname hnfix hcat hcfix hprice (by omega)]
  show (match Product.remove_inventory
          (match getProd (initState s p qty) (nextId s) with
           | some np => setProd (initState s p qty) { np with parent_id := p.product_id }
           | none => initState s p qty) pid qty with
        | (s3, Except.ok _) => (s3, some (nextId s))
        | (s3, Except.error _) => (s3, none)) = _
  rw [getProd_initState hfresh]
  show (match Product.remove_inventory
          (setProd (initState s p qty) { newUnitPre s p qty with parent_id := p.product_id })
          pid qty with
        | (s3, Except.ok _) => (s3, some (nextId s))
        | (s3, Except.error _) => (s3, none)) = _
  rw [show ({ newUnitPre s p qty with parent_id := p.product_id } : Product)
      = newUnit s p qty from rfl]
  rw [show setProd (initState s p qty) (newUnit s p qty) = splitMidState s p qty from by
    simp only [setProd, updP_initState hfresh]
    rfl]

theorem remove_eq_sub_mid (s : PState) (pid : Nat) (p : Product) (qty : Int)
    (hp : getProd s pid = some p) (hreg : pid ∈ s.registry)
    (hq : 0 < qty) (hqle : qty ≤ p.quantity) :
    Product.remove_inventory (splitMidState s p qty) pid qty
      = Product.sub_int (splitMidState s p qty) pid qty := by
  have hmem2 : inRegistry (splitMidState s p qty) pid = true := by
    rw [inRegistry, pyMem, List.any_eq_true]
    refine ⟨pid, ?_, ?_⟩
    · show pid ∈ s.registry ++ [nextId s]
      exact List.mem_append_left _ hreg
    · simp [refMatch, refMatchH]
  simp only [Product.remove_inventory]
  rw [if_neg (show ¬((!(inRegistry (splitMidState s p qty) pid)) = true) from by
    rw [hmem2]
    simp)]
  simp only [getProd_splitMidState hp]
  rw [if_neg (show ¬((decide (qty ≤ 0) || decide (p.quantity < qty)) = true) from by
    simp
    omega)]

theorem sub_int_mid_lt (s : PState) (pid : Nat) (p : Product) (qty : Int)
    (hp : getProd s pid = some p) (hlt : qty < p.quantity) :
    Product.sub_int (splitMidState s p qty) pid qty
      = (setProd (splitMidState s p qty) { p with quantity := p.quantity - qty },
         Except.ok ()) := by
  simp only [Product.sub_int, getProd_splitMidState hp]
  rw [if_neg (show ¬(p.quantity < qty) from by omega)]
  rw [if_neg (show ¬((qty == p.quantity) = true) from by
    simp
    omega)]
  rw [quantity_set_vint (show p.quantity - qty ≠ 0 from by omega)]

theorem refMatch_splitMidState (s : PState) (pid : Nat) (p : Product) (qty : Int)
    (hp : getProd s pid = some p) (hregwf : RegWF s) :
    ∀ qid ∈ s.registry, refMatch (splitMidState s p qty) qid pid = refMatch s qid pid := by
  intro qid hqid
  have hq2 := hregwf qid hqid
  rw [refMatch, refMatch, refMatchH, refMatchH]
  have hfq : findP (splitMidState s p qty).heap qid = findP s.heap qid := by
    show findP (s.heap ++ [newUnit s p qty]) qid = findP s.heap qid
    rw [findP_append]
    cases hfc : findP s.heap qid with
    | none =>
      rw [show getProd s qid = findP s.heap qid from rfl, hfc] at hq2
      simp at hq2
    | some x => rfl
  rw [hfq]
  rw [show findP (splitMidState s p qty).heap pid = some p from getProd_splitMidState hp]
  rw [show findP s.heap pid = some p from hp]

theorem findIdx?_congr {α : Type} {p q : α → Bool} :
    ∀ (l : List α) (i : Nat), (∀ a ∈ l, p a = q a) → l.findIdx? p i = l.findIdx? q i := by
  intro l
  induction l with
  | nil => intro i _; rfl
  | cons a as ih =>
    intro i h
    rw [List.findIdx?_cons, List.findIdx?_cons, h a (List.mem_cons_self a as),
      ih (i + 1) (fun b hb => h b (List.mem_cons_of_mem a hb))]

theorem not_mem_eraseIdx_of_nodup {l : List Nat} :
    ∀ {i a : Nat}, l.Nodup → l.get? i = some a → a ∉ l.eraseIdx i := by
  induction l with
  | nil =>
    intro i a _ hg
    simp at hg
  | cons c cs ih =>
    intro i a hn hg
    cases i with
    | zero =>
      have hac : c = a := by simpa using hg
      rw [List.eraseIdx_cons_zero, ← hac]
      exact (List.nodup_cons.mp hn).1
    | succ j =>
      have hg2 : cs.get? j = some a := by simpa using hg
      rw [List.eraseIdx_cons_succ]
      intro hmem
      rcases List.mem_cons.mp hmem with h1 | h1
      · have hacs : a ∈ cs := List.get?_mem hg2
        rw [h1] at hacs
        exact (List.nodup_cons.mp hn).1 hacs
      · exact ih (List.nodup_cons.mp hn).2 hg2 h1

theorem sub_int_mid_eq (s : PState) (pid : Nat) (p : Product) (qty : Int) (j : Nat)
    (hp : getProd s pid = some p) (hqeq : qty = p.quantity)
    (hregwf : RegWF s)
    (hj : pyIndexOf s s.registry pid = some j) :
    Product.sub_int (splitMidState s p qty) pid qty
      = ({ splitMidState s p qty with registry := (s.registry ++ [nextId s]).eraseIdx j },
         Except.ok ()) := by
  simp only [Product.sub_int, getProd_splitMidState hp]
  rw [if_neg (show ¬(p.quantity < qty) from by omega)]
  rw [if_pos (beq_iff_eq.mpr hqeq)]
  have hidx2 : pyIndexOf (splitMidState s p qty) (splitMidState s p qty).registry pid
      = some j := by
    show pyIndexOf (splitMidState s p qty) (s.registry ++ [nextId s]) pid = some j
    rw [pyIndexOf, List.findIdx?_append]
    have hcongr : s.registry.findIdx? (fun qid => refMatch (splitMidState s p qty) qid pid) 0
        = s.registry.findIdx? (fun qid => refMatch s qid pid) 0 :=
      findIdx?_congr s.registry 0 (refMatch_splitMidState s pid p qty hp hregwf)
    rw [hcongr]
    rw [show s.registry.findIdx? (fun qid => refMatch s qid pid) = some j from hj]
    rfl
  simp only [delete_product, hidx2]
  rfl

/-- C8 (amended): for every registered Product with quantity q and every
0 < qty ≤ q, `new(qty)` returns a fresh registered unit carrying the same
name, category and price, quantity qty, and parent id equal to the source's
id; if qty < q the source is left registered with quantity q - qty; if
qty = q the registry entry REMOVED is the first one that compares
`__eq__`-equal (same id or same parent id) to the source — the source itself
exactly when it is that first match, as every original catalog unit is, but
an earlier lineage member otherwise (see the counterexample), the removed
slot being index i of the first match. -/
theorem C8_split_behavior (s : PState) (pid : Nat) (p : Product) (qty : Int)
    (hp : getProd s pid = some p)
    (hreg : pid ∈ s.registry)
    (hregwf : RegWF s)
    (hfresh : ∀ q ∈ s.heap, q.product_id < nextId s)
    (hname : p.name ≠ "") (hnfix : storeNorm (pyTitle p.name) = p.name)
    (hcat : p.category ≠ "") (hcfix : storeNorm p.category = p.category)
    (hprice : p.price ≠ 0)
    (hq : 0 < qty) (hqle : qty ≤ p.quantity) :
    (Product.new s pid qty).2 = some (nextId s)
    ∧ getProd (Product.new s pid qty).1 (nextId s)
        = some { product_id := nextId s, parent_id := pid, name := p.name,
                 category := p.category, price := p.price, quantity := qty,
                 attr_incart := false }
    ∧ (qty < p.quantity →
        (Product.new s pid qty).1.registry = s.registry ++ [nextId s]
        ∧ getProd (Product.new s pid qty).1 pid
            = some { p with quantity := p.quantity - qty })
    ∧ (qty = p.quantity → ∀ i, pyIndexOf s s.registry pid = some i →
        s.registry.get? i = some pid → s.registry.Nodup →
        (Product.new s pid qty).1.registry = s.registry.eraseIdx i ++ [nextId s]
        ∧ pid ∉ (Product.new s pid qty).1.registry) := by
  have hpid : p.product_id = pid := (mem_of_findP hp).2
  have hpidlt : pid < nextId s := hpid ▸ hfresh p (mem_of_findP hp).1
  have hNU : newUnit s p qty
      = { product_id := nextId s, parent_id := pid, name := p.name,
          category := p.category, price := p.price, quantity := qty,
          attr_incart := false } := by
    rw [newUnit, hpid]
  have hmain := new_eq_split s pid p qty hp hfresh hname hnfix hcat hcfix hprice hq hqle
  by_cases hcase : qty = p.quantity
  · have hex : ∃ j, pyIndexOf s s.registry pid = some j := by
      cases hpi : pyIndexOf s s.registry pid with
      | some j => exact ⟨j, rfl⟩
      | none =>
        rw [pyIndexOf, List.findIdx?_eq_none_iff] at hpi
        have hcontra := hpi pid hreg
        simp [refMatch, refMatchH] at hcontra
    obtain ⟨j, hj⟩ := hex
    have hfin : Product.new s pid qty
        = ({ splitMidState s p qty with registry := (s.registry ++ [nextId s]).eraseIdx j },
           some (nextId s)) := by
      rw [hmain, remove_eq_sub_mid s pid p qty hp hreg hq hqle,
        sub_int_mid_eq s pid p qty j hp hcase hregwf hj]
    refine ⟨by rw [hfin], ?_, ?_, ?_⟩
    · rw [hfin]
      show getProd (splitMidState s p qty) (nextId s) = _
      rw [getProd_splitMidState_new hfresh, hNU]
    · intro hlt
      exact absurd hcase (by omega)
    · intro _ i hi hget hnodup
      have hij : j = i := Option.some_inj.mp (hj.symm.trans hi)
      subst hij
      have hlen : j < s.registry.length := by
        rcases List.get?_eq_some.mp hget with ⟨hl, -⟩
        exact hl
      constructor
      · rw [hfin]
        show (s.registry ++ [nextId s]).eraseIdx j = s.registry.eraseIdx j ++ [nextId s]
        exact List.eraseIdx_append_of_lt_length hlen [nextId s]
      · rw [hfin]
        show pid ∉ (s.registry ++ [nextId s]).eraseIdx j
        rw [List.eraseIdx_append_of_lt_length hlen [nextId s]]
        intro hmem
        rcases List.mem_append.mp hmem with h1 | h1
        · exact not_mem_eraseIdx_of_nodup hnodup hget h1
        · have hpn : pid = nextId s := List.mem_singleton.mp h1
          omega
  · have hlt : qty < p.quantity := by omega
    have hfin : Product.new s pid qty
        = (setProd (splitMidState s p qty) { p with quantity := p.quantity - qty },
           some (nextId s)) := by
      rw [hmain, remove_eq_sub_mid s pid p qty hp hreg hq hqle,
        sub_int_mid_lt s pid p qty hp hlt]
    refine ⟨by rw [hfin], ?_, ?_, ?_⟩
    · rw [hfin]
      show getProd (setProd (splitMidState s p qty) { p with quantity := p.quantity - qty })
          (nextId s) = _
      rw [show getProd (setProd (splitMidState s p qty)
              { p with quantity := p.quantity - qty }) (nextId s)
          = getProd (splitMidState s p qty) (nextId s) from
        findP_updP_ne (show nextId s
            ≠ ({ p with quantity := p.quantity - qty } : Product).product_id from by
          show nextId s ≠ p.product_id
          omega)]
      rw [getProd_splitMidState_new hfresh, hNU]
    · intro _
      constructor
      · rw [hfin]
        rfl
      · rw [hfin]
        show getProd (setProd (splitMidState s p qty)
            { p with quantity := p.quantity - qty }) pid
          = some { p with quantity := p.quantity - qty }
        exact findP_updP_self (getProd_splitMidState hp) rfl
    · intro hqeq
      exact absurd hqeq hcase

/-- C8 counterexample: the claim as stated says a full-quantity split removes
THE SOURCE from the registry.  Trace: seed Mouse (id 100000, quantity 50);
split 5 units into child 100001 (source left at 45); then split the child to
exhaustion with `new(5)`.  That should remove 100001, but `delete_product`
pops the FIRST registry element comparing `__eq__`-equal (same id or same
parent id): the original 100000 — so the registry loses the 45-unit catalog
entry while the exhausted source 100001 remains registered. -/
theorem C8_counterexample :
    (getProd exSplit 100001).map Product.quantity = some 5
    ∧ 100001 ∈ exSplit.registry
    ∧ 100000 ∈ exSplit.registry
    ∧ (getProd exSplit 100000).map Product.quantity = some 45
    ∧ (Product.new exSplit 100001 5).2 = some 100002
    ∧ (Product.new exSplit 100001 5).1.registry = [100001, 100002] := by decide

/-- Witness for the amended C8 at the concrete catalog of `exS1` (Mouse,
quantity 50, split quantity 5). -/
theorem C8_split_behavior_witness :
    (Product.new exS1 100000 5).2 = some (nextId exS1)
    ∧ (Product.new exS1 100000 5).1.registry = exS1.registry ++ [nextId exS1]
    ∧ getProd (Product.new exS1 100000 5).1 100000
        = some { exMouse with quantity := exMouse.quantity - 5 } :=
  ⟨(C8_split_behavior exS1 100000 exMouse 5 (by decide) (by decide)
      (show RegWF exS1 from (by decide : ∀ pid ∈ exS1.registry, (getProd exS1 pid).isSome))
      (by decide) (by decide) (by decide) (by decide) (by decide) (by decide) (by decide)
      (by decide)).1,
   ((C8_split_behavior exS1 100000 exMouse 5 (by decide) (by decide)
      (show RegWF exS1 from (by decide : ∀ pid ∈ exS1.registry, (getProd exS1 pid).isSome))
      (by decide) (by decide) (by decide) (by decide) (by decide) (by decide) (by decide)
      (by decide)).2.2.1 (by decide)).1,
   ((C8_split_behavior exS1 100000 exMouse 5 (by decide) (by decide)
      (show RegWF exS1 from (by decide : ∀ pid ∈ exS1.registry, (getProd exS1 pid).isSome))
      (by decide) (by decide) (by decide) (by decide) (by decide) (by decide) (by decide)
      (by decide)).2.2.1 (by decide)).2⟩

end Shop
